import Mathlib

/-!
# Verification of the playnex-backend controllers

A shallow embedding of the Express/Mongoose controllers of the
playnex-backend repository, together with proofs about the behaviour the
specification ascribes to them.

Conventions of the embedding:

* MongoDB ObjectIds are modelled as natural numbers (`Id`).  The
  `isValidObjectId` / empty-string checks performed by the controllers are
  vacuous under this modelling (every `Id` is a valid id), so they do not
  appear in the embedded operations; a request that would fail those checks
  is outside the domain of the model.
* A Mongoose collection is a list of documents; `findById` / `findOne`
  become `List.find?`, `findByIdAndDelete` removes the matching document,
  and saving a fetched-and-mutated document writes it back over every
  document with the same key (collections are used with unique keys, which
  the theorems assume explicitly where it matters).
* Controllers return `Except (Nat × String) (Nat × DB)` — an `ApiError`
  (status code and message, thrown before any write, so the caller's state
  is unchanged) or an HTTP status together with the updated database.
  The `catch` blocks of the controllers rethrow `ApiError`s unchanged
  (`error?.statusCode || 500`), so they are transparent in the model.
-/

set_option autoImplicit false

namespace Playnex

/-- MongoDB ObjectIds, modelled as natural numbers. -/
abbrev Id := Nat

/-- A document of the `Video` collection (`video.model.js`): media metadata,
a views counter, a publish flag and an owner reference. -/
structure VideoDoc where
  vid : Id
  ownerId : Id
  title : String
  views : Nat
  isPublished : Bool
  deriving Repr, DecidableEq

/-- A document of the `User` collection (`user.model.js`, `src/unnamed/part_000`):
credentials, profile fields and the watch history (an ordered list of video
references).  `passwordModified` models Mongoose's `isModified("password")`
flag consulted by the `pre("save")` hook. -/
structure UserDoc where
  uid : Id
  username : String
  email : String
  password : String
  passwordModified : Bool
  watchHistory : List Id
  deriving Repr, DecidableEq

/-- A document of the `Like` collection: one per user (`findOne({likedBy})`),
holding the user's liked video/comment/tweet references.  Mongoose array
fields default to `[]` on `Like.create({ likedBy })`. -/
structure LikeDoc where
  likedBy : Id
  videos : List Id
  comments : List Id
  tweets : List Id
  deriving Repr, DecidableEq

/-- A document of the `Playlist` collection: an owner and an ordered list of
video references. -/
structure PlaylistDoc where
  pid : Id
  ownerId : Id
  videos : List Id
  deriving Repr, DecidableEq

/-- A document of the `Comment` collection: content, owner and video
reference. -/
structure CommentDoc where
  cid : Id
  videoId : Id
  ownerId : Id
  deriving Repr, DecidableEq

/-- A document of the `Tweet` collection: content and owner. -/
structure TweetDoc where
  tid : Id
  ownerId : Id
  deriving Repr, DecidableEq

/-- A document of the `Subscription` collection
(`src/unnamed/part_000`, `subscriptionSchema`): a (subscriber, channel)
pair of user references. -/
structure SubDoc where
  subscriber : Id
  channel : Id
  deriving Repr, DecidableEq

/-- The document database: one list of documents per collection. -/
structure DB where
  users : List UserDoc
  videos : List VideoDoc
  likes : List LikeDoc
  playlists : List PlaylistDoc
  comments : List CommentDoc
  tweets : List TweetDoc
  subs : List SubDoc
  deriving Repr, DecidableEq

/-! ## Watch-history update (`getVideoById`)

`src/src/controllers/video.controller.js` lines 90–111 and (identically)
`src/server/src/controllers/video.controller.js` lines 184–208:

1. `$pull { watchHistory: videoId }` — remove every occurrence of the id;
2. `$push { watchHistory: { $each: [videoId], $position: 0 } }` — prepend;
3. if the history now has more than 100 entries, `slice(0, 100)` and save.
-/

/-- The watch-history update performed by `getVideoById` for the
authenticated user. -/
def watchHistoryAfterView (videoId : Id) (h : List Id) : List Id :=
  let pulled := h.filter (fun w => w ≠ videoId)
  let pushed := videoId :: pulled
  if pushed.length > 100 then pushed.take 100 else pushed

/-- `getVideoById` (`video.controller.js`): 404 when the video does not
exist; otherwise increment its view counter and, when the request is
authenticated, rewrite the user's watch history with
`watchHistoryAfterView`.  The response body (the populated video) is not
modelled; the result is the status code and the new database. -/
def getVideoById (videoId : Id) (requester : Option Id) (db : DB) :
    Except (Nat × String) (Nat × DB) :=
  match db.videos.find? (fun vd => vd.vid = videoId) with
  | none => .error (404, "Video not found")
  | some _ =>
    let db1 := { db with
      videos := db.videos.map (fun vd =>
        if vd.vid = videoId then { vd with views := vd.views + 1 } else vd) }
    match requester with
    | none => .ok (200, db1)
    | some uid =>
      .ok (200, { db1 with
        users := db1.users.map (fun u =>
          if u.uid = uid then
            { u with watchHistory := watchHistoryAfterView videoId u.watchHistory }
          else u) })

/-! ### Pure facts about `watchHistoryAfterView` -/

theorem watchHistoryAfterView_eq_take (videoId : Id) (h : List Id) :
    watchHistoryAfterView videoId h =
      (videoId :: h.filter (fun w => w ≠ videoId)).take 100 := by
  unfold watchHistoryAfterView
  by_cases hl : (videoId :: h.filter (fun w => w ≠ videoId)).length > 100
  · simp [hl]
  · simp only [hl, if_neg, ite_false]
    exact (List.take_of_length_le (by omega)).symm

theorem watchHistoryAfterView_head (videoId : Id) (h : List Id) :
    (watchHistoryAfterView videoId h).head? = some videoId := by
  rw [watchHistoryAfterView_eq_take]
  rfl

theorem watchHistoryAfterView_count (videoId : Id) (h : List Id) :
    (watchHistoryAfterView videoId h).count videoId = 1 := by
  rw [watchHistoryAfterView_eq_take]
  have hfz : (h.filter (fun w => w ≠ videoId)).count videoId = 0 := by
    rw [List.count_eq_zero]
    intro hmem
    have := List.of_mem_filter hmem
    simp at this
  have htz : ((h.filter (fun w => w ≠ videoId)).take 99).count videoId = 0 := by
    have hle := (List.take_sublist 99 (h.filter (fun w => w ≠ videoId))).count_le videoId
    omega
  rw [List.take_succ_cons, List.count_cons_self, htz]

theorem watchHistoryAfterView_length (videoId : Id) (h : List Id) :
    (watchHistoryAfterView videoId h).length ≤ 100 := by
  rw [watchHistoryAfterView_eq_take]
  exact List.length_take_le _ _

/-! ### A `find?`/`map` helper used to read back the saved document -/

theorem find?_map_update {α : Type} (key : α → Id) (g : α → α) (k : Id)
    (l : List α) (a : α)
    (hkey : ∀ b, key b = k → key (g b) = key b)
    (ha : a ∈ l) (hak : key a = k)
    (hnd : (l.map key).Nodup) :
    (l.map (fun x => if key x = k then g x else x)).find? (fun x => key x = k) =
      some (g a) := by
  subst hak
  induction l with
  | nil => cases ha
  | cons b t ih =>
    simp only [List.map_cons, List.nodup_cons] at hnd
    rcases List.mem_cons.mp ha with rfl | hat
    · have h1 := hkey a rfl
      simp [List.find?_cons, h1]
    · have hbk : key b ≠ key a := fun hbk => hnd.1 (hbk ▸ List.mem_map_of_mem key hat)
      simp only [List.map_cons, if_neg hbk, List.find?_cons]
      have hfalse : (decide (key b = key a)) = false := by simpa using hbk
      rw [hfalse]
      exact ih hat hnd.2

/-- C1.  Watch-history trimming: for an authenticated user whose watch
history has at most 100 entries, a successful `getVideoById` for video `v`
updates the stored watch history to `v` followed by the old history with
every occurrence of `v` removed, truncated to the first 100 entries; in
particular `v` is the first entry, `v` occurs exactly once, and the history
has at most 100 entries. -/
theorem C1_watch_history_trim (db : DB) (uid videoId : Id) (u : UserDoc) (vd : VideoDoc)
    (hu : u ∈ db.users) (huid : u.uid = uid)
    (hv : vd ∈ db.videos) (hvid : vd.vid = videoId)
    (hnd : (db.users.map (fun w => w.uid)).Nodup)
    (_hlen : u.watchHistory.length ≤ 100) :
    ∃ db' : DB, getVideoById videoId (some uid) db = .ok (200, db') ∧
      ∃ u' : UserDoc, db'.users.find? (fun w => w.uid = uid) = some u' ∧
        u'.watchHistory =
          (videoId :: u.watchHistory.filter (fun w => w ≠ videoId)).take 100 ∧
        u'.watchHistory.head? = some videoId ∧
        u'.watchHistory.count videoId = 1 ∧
        u'.watchHistory.length ≤ 100 := by
  have hvf : (db.videos.find? (fun w => w.vid = videoId)).isSome :=
    List.find?_isSome.mpr ⟨vd, hv, by simp [hvid]⟩
  obtain ⟨w, hw⟩ := Option.isSome_iff_exists.mp hvf
  refine ⟨_, by rw [getVideoById, hw], ?_⟩
  refine ⟨{ u with watchHistory := watchHistoryAfterView videoId u.watchHistory }, ?_, ?_, ?_, ?_, ?_⟩
  · exact find?_map_update (fun x => x.uid)
      (fun x => { x with watchHistory := watchHistoryAfterView videoId x.watchHistory })
      uid db.users u (fun _ _ => rfl) hu huid hnd
  · exact watchHistoryAfterView_eq_take videoId u.watchHistory
  · exact watchHistoryAfterView_head videoId u.watchHistory
  · exact watchHistoryAfterView_count videoId u.watchHistory
  · exact watchHistoryAfterView_length videoId u.watchHistory

theorem C1_watch_history_trim_witness :
    ∃ db' : DB,
      getVideoById 7 (some 1)
        { users := [{ uid := 1, username := "alice", email := "alice@mail",
                      password := "hp", passwordModified := false,
                      watchHistory := [5, 7, 9] }],
          videos := [{ vid := 7, ownerId := 2, title := "t", views := 0,
                       isPublished := true }],
          likes := [], playlists := [], comments := [], tweets := [], subs := [] }
        = .ok (200, db') ∧
      ∃ u' : UserDoc, db'.users.find? (fun w => w.uid = 1) = some u' ∧
        u'.watchHistory = (7 :: [5, 7, 9].filter (fun w => w ≠ 7)).take 100 ∧
        u'.watchHistory.head? = some 7 ∧
        u'.watchHistory.count 7 = 1 ∧
        u'.watchHistory.length ≤ 100 :=
  C1_watch_history_trim _ 1 7
    { uid := 1, username := "alice", email := "alice@mail", password := "hp",
      passwordModified := false, watchHistory := [5, 7, 9] }
    { vid := 7, ownerId := 2, title := "t", views := 0, isPublished := true }
    (by simp) rfl (by simp) rfl (by simp) (by simp)

/-! ## Like toggling (`src/server/src/controllers/like.controller.js`)

All three toggles share the same structure: validate the id, 404 when the
target does not exist, fetch (or create) the user's single `Like` document,
then `indexOf` / `splice(index, 1)` / `push` on the relevant reference
list. -/

/-- The list update at the heart of each toggle:
`indexOf(t) >= 0` (`t` occurs) → `splice(index, 1)` (drop the first
occurrence) and respond 200; otherwise `push(t)` (append) and respond
201. -/
def toggleRefList (t : Id) (l : List Id) : Nat × List Id :=
  if t ∈ l then (200, l.erase t) else (201, l ++ [t])

/-- `Like.findOne({likedBy: uid})`, followed by `Like.create({likedBy: uid})`
when no document exists: the user's like document together with the
collection that now contains it. -/
def getOrCreateLike (uid : Id) (likes : List LikeDoc) : LikeDoc × List LikeDoc :=
  match likes.find? (fun d => d.likedBy = uid) with
  | some d => (d, likes)
  | none =>
    let d : LikeDoc := { likedBy := uid, videos := [], comments := [], tweets := [] }
    (d, likes ++ [d])

/-- `userLikes.save()`: write the mutated document back over the user's like
document. -/
def saveLike (uid : Id) (d : LikeDoc) (likes : List LikeDoc) : List LikeDoc :=
  likes.map (fun x => if x.likedBy = uid then d else x)

/-- `toggleVideoLike`: 404 when the video does not exist, otherwise toggle
the video reference in the user's like document. -/
def toggleVideoLike (uid videoId : Id) (db : DB) : Except (Nat × String) (Nat × DB) :=
  match db.videos.find? (fun v => v.vid = videoId) with
  | none => .error (404, "Video not found")
  | some _ =>
    let p := getOrCreateLike uid db.likes
    let r := toggleRefList videoId p.1.videos
    .ok (r.1, { db with likes := saveLike uid { p.1 with videos := r.2 } p.2 })

/-- `toggleCommentLike`: 404 when the comment does not exist, otherwise
toggle the comment reference in the user's like document. -/
def toggleCommentLike (uid commentId : Id) (db : DB) : Except (Nat × String) (Nat × DB) :=
  match db.comments.find? (fun c => c.cid = commentId) with
  | none => .error (404, "Comment not found")
  | some _ =>
    let p := getOrCreateLike uid db.likes
    let r := toggleRefList commentId p.1.comments
    .ok (r.1, { db with likes := saveLike uid { p.1 with comments := r.2 } p.2 })

/-- `toggleTweetLike`: 404 when the tweet does not exist, otherwise toggle
the tweet reference in the user's like document. -/
def toggleTweetLike (uid tweetId : Id) (db : DB) : Except (Nat × String) (Nat × DB) :=
  match db.tweets.find? (fun t => t.tid = tweetId) with
  | none => .error (404, "Tweet not found")
  | some _ =>
    let p := getOrCreateLike uid db.likes
    let r := toggleRefList tweetId p.1.tweets
    .ok (r.1, { db with likes := saveLike uid { p.1 with tweets := r.2 } p.2 })

/-- The liked-video references the database currently stores for a user
(empty when the user has no like document). -/
def likedVideosOf (uid : Id) (db : DB) : List Id :=
  match db.likes.find? (fun d => d.likedBy = uid) with
  | some d => d.videos
  | none => []

/-- The liked-comment references the database currently stores for a user. -/
def likedCommentsOf (uid : Id) (db : DB) : List Id :=
  match db.likes.find? (fun d => d.likedBy = uid) with
  | some d => d.comments
  | none => []

/-- The liked-tweet references the database currently stores for a user. -/
def likedTweetsOf (uid : Id) (db : DB) : List Id :=
  match db.likes.find? (fun d => d.likedBy = uid) with
  | some d => d.tweets
  | none => []

/-! ### Pure facts about `toggleRefList` -/

theorem toggleRefList_not_mem (t : Id) (l : List Id) (h : t ∉ l) :
    toggleRefList t l = (201, l ++ [t]) := by
  simp [toggleRefList, h]

theorem toggleRefList_mem (t : Id) (l : List Id) (h : t ∈ l) :
    toggleRefList t l = (200, l.erase t) := by
  simp [toggleRefList, h]

theorem toggleRefList_nodup (t : Id) (l : List Id) (h : l.Nodup) :
    (toggleRefList t l).2.Nodup := by
  by_cases ht : t ∈ l
  · rw [toggleRefList_mem t l ht]
    exact h.erase t
  · rw [toggleRefList_not_mem t l ht]
    simp [List.nodup_append, h, ht]

theorem toggleRefList_removes (t : Id) (l : List Id) (hnd : l.Nodup) (h : t ∈ l) :
    t ∉ (toggleRefList t l).2 := by
  rw [toggleRefList_mem t l h]
  exact hnd.not_mem_erase

theorem toggleRefList_twice_of_not_mem (t : Id) (l : List Id) (h : t ∉ l) :
    (toggleRefList t (toggleRefList t l).2).2 = l := by
  rw [toggleRefList_not_mem t l h]
  have hmem : t ∈ l ++ [t] := by simp
  rw [toggleRefList_mem t (l ++ [t]) hmem]
  rw [List.erase_append_right [t] (by simpa using h)]
  simp

theorem toggleRefList_twice_mem_iff (t : Id) (l : List Id) (hnd : l.Nodup) (x : Id) :
    x ∈ (toggleRefList t (toggleRefList t l).2).2 ↔ x ∈ l := by
  by_cases ht : t ∈ l
  · rw [toggleRefList_mem t l ht]
    have ht2 : t ∉ l.erase t := hnd.not_mem_erase
    rw [toggleRefList_not_mem t _ ht2]
    simp only [List.mem_append, List.mem_singleton]
    constructor
    · rintro (hx | rfl)
      · exact (List.erase_sublist t l).mem hx
      · exact ht
    · intro hx
      by_cases hxt : x = t
      · exact Or.inr hxt
      · exact Or.inl (hnd.mem_erase_iff.mpr ⟨hxt, hx⟩)
  · rw [toggleRefList_twice_of_not_mem t l ht]

theorem toggleRefList_status (t : Id) (l : List Id) :
    (toggleRefList t l).1 = if t ∈ l then 200 else 201 := by
  by_cases h : t ∈ l <;> simp [toggleRefList, h]

/-! ### Controller-level facts about the like document -/

theorem getOrCreateLike_key (uid : Id) (likes : List LikeDoc) :
    (getOrCreateLike uid likes).1.likedBy = uid := by
  unfold getOrCreateLike
  cases hf : likes.find? (fun d => d.likedBy = uid) with
  | none => rfl
  | some d =>
    have := List.find?_some hf
    simpa using this

theorem getOrCreateLike_mem (uid : Id) (likes : List LikeDoc) :
    (getOrCreateLike uid likes).1 ∈ (getOrCreateLike uid likes).2 := by
  unfold getOrCreateLike
  cases hf : likes.find? (fun d => d.likedBy = uid) with
  | none => simp
  | some d => simpa using List.mem_of_find?_eq_some hf

theorem getOrCreateLike_nodup (uid : Id) (likes : List LikeDoc)
    (hnd : (likes.map (fun d => d.likedBy)).Nodup) :
    ((getOrCreateLike uid likes).2.map (fun d => d.likedBy)).Nodup := by
  unfold getOrCreateLike
  cases hf : likes.find? (fun d => d.likedBy = uid) with
  | none =>
    have hout : uid ∉ likes.map (fun d => d.likedBy) := by
      intro hmem
      obtain ⟨d, hd, hdk⟩ := List.mem_map.mp hmem
      have := List.find?_eq_none.mp hf d hd
      simp [hdk] at this
    simp only [List.map_append]
    exact List.Nodup.append hnd (by simp) (by
      intro x hx hy
      simp only [List.map_cons, List.map_nil, List.mem_cons, List.not_mem_nil, or_false] at hy
      exact hout (hy ▸ hx))
  | some d => simpa using hnd

/-- Reading the like document back after `saveLike`. -/
theorem find?_saveLike (uid : Id) (nd : LikeDoc) (likes : List LikeDoc)
    (hk : nd.likedBy = uid) (a : LikeDoc) (ha : a ∈ likes) (hak : a.likedBy = uid)
    (hnd : (likes.map (fun d => d.likedBy)).Nodup) :
    (saveLike uid nd likes).find? (fun d => d.likedBy = uid) = some nd :=
  find?_map_update (fun d => d.likedBy) (fun _ => nd) uid likes a
    (fun b hb => show nd.likedBy = b.likedBy from hk.trans hb.symm) ha hak hnd

theorem likedVideosOf_getOrCreate (uid : Id) (db : DB) :
    likedVideosOf uid db = (getOrCreateLike uid db.likes).1.videos := by
  unfold likedVideosOf getOrCreateLike
  cases hf : db.likes.find? (fun d => d.likedBy = uid) <;> rfl

theorem likedCommentsOf_getOrCreate (uid : Id) (db : DB) :
    likedCommentsOf uid db = (getOrCreateLike uid db.likes).1.comments := by
  unfold likedCommentsOf getOrCreateLike
  cases hf : db.likes.find? (fun d => d.likedBy = uid) <;> rfl

theorem likedTweetsOf_getOrCreate (uid : Id) (db : DB) :
    likedTweetsOf uid db = (getOrCreateLike uid db.likes).1.tweets := by
  unfold likedTweetsOf getOrCreateLike
  cases hf : db.likes.find? (fun d => d.likedBy = uid) <;> rfl

theorem likedVideosOf_def (uid : Id) (db : DB) :
    likedVideosOf uid db =
      (match db.likes.find? (fun d => d.likedBy = uid) with
        | some d => d.videos
        | none => []) := rfl

theorem likedCommentsOf_def (uid : Id) (db : DB) :
    likedCommentsOf uid db =
      (match db.likes.find? (fun d => d.likedBy = uid) with
        | some d => d.comments
        | none => []) := rfl

theorem likedTweetsOf_def (uid : Id) (db : DB) :
    likedTweetsOf uid db =
      (match db.likes.find? (fun d => d.likedBy = uid) with
        | some d => d.tweets
        | none => []) := rfl

theorem toggleVideoLike_spec (db : DB) (uid videoId : Id) (vd : VideoDoc)
    (hv : vd ∈ db.videos) (hvid : vd.vid = videoId)
    (hnd : (db.likes.map (fun d => d.likedBy)).Nodup) :
    ∃ db' : DB,
      toggleVideoLike uid videoId db =
        .ok ((toggleRefList videoId (likedVideosOf uid db)).1, db') ∧
      likedVideosOf uid db' = (toggleRefList videoId (likedVideosOf uid db)).2 := by
  have hvf : (db.videos.find? (fun w => w.vid = videoId)).isSome :=
    List.find?_isSome.mpr ⟨vd, hv, by simp [hvid]⟩
  obtain ⟨w, hw⟩ := Option.isSome_iff_exists.mp hvf
  rw [likedVideosOf_getOrCreate]
  refine ⟨_, by rw [toggleVideoLike, hw], ?_⟩
  rw [likedVideosOf_def]
  simp only []
  rw [find?_saveLike uid
    { (getOrCreateLike uid db.likes).1 with
      videos := (toggleRefList videoId (getOrCreateLike uid db.likes).1.videos).2 }
    (getOrCreateLike uid db.likes).2 (getOrCreateLike_key uid db.likes)
    (getOrCreateLike uid db.likes).1 (getOrCreateLike_mem uid db.likes)
    (getOrCreateLike_key uid db.likes) (getOrCreateLike_nodup uid db.likes hnd)]

theorem toggleCommentLike_spec (db : DB) (uid commentId : Id) (cd : CommentDoc)
    (hc : cd ∈ db.comments) (hcid : cd.cid = commentId)
    (hnd : (db.likes.map (fun d => d.likedBy)).Nodup) :
    ∃ db' : DB,
      toggleCommentLike uid commentId db =
        .ok ((toggleRefList commentId (likedCommentsOf uid db)).1, db') ∧
      likedCommentsOf uid db' = (toggleRefList commentId (likedCommentsOf uid db)).2 := by
  have hcf : (db.comments.find? (fun w => w.cid = commentId)).isSome :=
    List.find?_isSome.mpr ⟨cd, hc, by simp [hcid]⟩
  obtain ⟨w, hw⟩ := Option.isSome_iff_exists.mp hcf
  rw [likedCommentsOf_getOrCreate]
  refine ⟨_, by rw [toggleCommentLike, hw], ?_⟩
  rw [likedCommentsOf_def]
  simp only []
  rw [find?_saveLike uid
    { (getOrCreateLike uid db.likes).1 with
      comments := (toggleRefList commentId (getOrCreateLike uid db.likes).1.comments).2 }
    (getOrCreateLike uid db.likes).2 (getOrCreateLike_key uid db.likes)
    (getOrCreateLike uid db.likes).1 (getOrCreateLike_mem uid db.likes)
    (getOrCreateLike_key uid db.likes) (getOrCreateLike_nodup uid db.likes hnd)]

theorem toggleTweetLike_spec (db : DB) (uid tweetId : Id) (td : TweetDoc)
    (ht : td ∈ db.tweets) (htid : td.tid = tweetId)
    (hnd : (db.likes.map (fun d => d.likedBy)).Nodup) :
    ∃ db' : DB,
      toggleTweetLike uid tweetId db =
        .ok ((toggleRefList tweetId (likedTweetsOf uid db)).1, db') ∧
      likedTweetsOf uid db' = (toggleRefList tweetId (likedTweetsOf uid db)).2 := by
  have htf : (db.tweets.find? (fun w => w.tid = tweetId)).isSome :=
    List.find?_isSome.mpr ⟨td, ht, by simp [htid]⟩
  obtain ⟨w, hw⟩ := Option.isSome_iff_exists.mp htf
  rw [likedTweetsOf_getOrCreate]
  refine ⟨_, by rw [toggleTweetLike, hw], ?_⟩
  rw [likedTweetsOf_def]
  simp only []
  rw [find?_saveLike uid
    { (getOrCreateLike uid db.likes).1 with
      tweets := (toggleRefList tweetId (getOrCreateLike uid db.likes).1.tweets).2 }
    (getOrCreateLike uid db.likes).2 (getOrCreateLike_key uid db.likes)
    (getOrCreateLike uid db.likes).1 (getOrCreateLike_mem uid db.likes)
    (getOrCreateLike_key uid db.likes) (getOrCreateLike_nodup uid db.likes hnd)]

/-- A database for the C2 counterexample: user 1's like document already
holds the duplicate-free video list `[7, 8]`, with the toggled video 7 not
in last position. -/
def dbLikeCE : DB :=
  { users := [],
    videos := [{ vid := 7, ownerId := 2, title := "v", views := 0, isPublished := true }],
    likes := [{ likedBy := 1, videos := [7, 8], comments := [], tweets := [] }],
    playlists := [], comments := [], tweets := [], subs := [] }

/-- `dbLikeCE` after one `toggleVideoLike` of video 7 by user 1. -/
def dbLikeCE1 : DB :=
  { dbLikeCE with likes := [{ likedBy := 1, videos := [8], comments := [], tweets := [] }] }

/-- `dbLikeCE` after two `toggleVideoLike`s of video 7 by user 1. -/
def dbLikeCE2 : DB :=
  { dbLikeCE with likes := [{ likedBy := 1, videos := [8, 7], comments := [], tweets := [] }] }

/-- C2, counterexample.  Starting from the duplicate-free liked list
`[7, 8]`, toggling the same (present) video 7 twice removes it and then
re-appends it at the end, producing `[8, 7]` — the original list is not
restored, refuting the claim's "applying the same toggle twice restores the
original list". -/
theorem C2_like_toggle_counterexample :
    ([7, 8] : List Id).Nodup ∧
    toggleVideoLike 1 7 dbLikeCE = .ok (200, dbLikeCE1) ∧
    toggleVideoLike 1 7 dbLikeCE1 = .ok (201, dbLikeCE2) ∧
    likedVideosOf 1 dbLikeCE = [7, 8] ∧
    likedVideosOf 1 dbLikeCE2 = [8, 7] ∧
    likedVideosOf 1 dbLikeCE2 ≠ likedVideosOf 1 dbLikeCE :=
  ⟨by decide, rfl, rfl, rfl, rfl, by decide⟩

/-- C2 (amended).  For an authenticated user and an existing target, each
toggle (`toggleVideoLike`, `toggleCommentLike`, `toggleTweetLike`) appends
the target to the user's liked list and responds 201 when the target is
absent, and removes its first occurrence (the only one, for a
duplicate-free list) and responds 200 when it is present; every toggle
preserves at-most-once occurrence, applying the same toggle twice restores
the original liked set (the target is re-appended at the end, so the list
itself is restored only up to order), and when the target was absent the
list itself is restored exactly. -/
theorem C2_like_toggle_amended (db : DB) (uid videoId commentId tweetId : Id)
    (vd : VideoDoc) (cd : CommentDoc) (td : TweetDoc)
    (hv : vd ∈ db.videos) (hvid : vd.vid = videoId)
    (hc : cd ∈ db.comments) (hcid : cd.cid = commentId)
    (ht : td ∈ db.tweets) (htid : td.tid = tweetId)
    (hnd : (db.likes.map (fun d => d.likedBy)).Nodup) :
    (∃ db' : DB, toggleVideoLike uid videoId db =
        .ok ((toggleRefList videoId (likedVideosOf uid db)).1, db') ∧
      likedVideosOf uid db' = (toggleRefList videoId (likedVideosOf uid db)).2) ∧
    (∃ db' : DB, toggleCommentLike uid commentId db =
        .ok ((toggleRefList commentId (likedCommentsOf uid db)).1, db') ∧
      likedCommentsOf uid db' = (toggleRefList commentId (likedCommentsOf uid db)).2) ∧
    (∃ db' : DB, toggleTweetLike uid tweetId db =
        .ok ((toggleRefList tweetId (likedTweetsOf uid db)).1, db') ∧
      likedTweetsOf uid db' = (toggleRefList tweetId (likedTweetsOf uid db)).2) ∧
    (∀ (t : Id) (l : List Id), (toggleRefList t l).1 = if t ∈ l then 200 else 201) ∧
    (∀ (t : Id) (l : List Id), t ∉ l → toggleRefList t l = (201, l ++ [t])) ∧
    (∀ (t : Id) (l : List Id), t ∈ l → toggleRefList t l = (200, l.erase t)) ∧
    (∀ (t : Id) (l : List Id), l.Nodup → t ∈ l → t ∉ (toggleRefList t l).2) ∧
    (∀ (t : Id) (l : List Id), l.Nodup → (toggleRefList t l).2.Nodup) ∧
    (∀ (t : Id) (l : List Id), l.Nodup →
      ∀ x, x ∈ (toggleRefList t (toggleRefList t l).2).2 ↔ x ∈ l) ∧
    (∀ (t : Id) (l : List Id), t ∉ l → (toggleRefList t (toggleRefList t l).2).2 = l) :=
  ⟨toggleVideoLike_spec db uid videoId vd hv hvid hnd,
   toggleCommentLike_spec db uid commentId cd hc hcid hnd,
   toggleTweetLike_spec db uid tweetId td ht htid hnd,
   toggleRefList_status,
   toggleRefList_not_mem,
   toggleRefList_mem,
   fun t l h1 h2 => toggleRefList_removes t l h1 h2,
   fun t l h => toggleRefList_nodup t l h,
   fun t l h x => toggleRefList_twice_mem_iff t l h x,
   toggleRefList_twice_of_not_mem⟩

theorem C2_like_toggle_amended_witness :
    ∃ db' : DB,
      toggleVideoLike 1 7
        { users := [],
          videos := [{ vid := 7, ownerId := 2, title := "v", views := 0, isPublished := true }],
          likes := [],
          playlists := [],
          comments := [{ cid := 8, videoId := 7, ownerId := 2 }],
          tweets := [{ tid := 9, ownerId := 2 }],
          subs := [] } =
        .ok ((toggleRefList 7 (likedVideosOf 1
          { users := [],
            videos := [{ vid := 7, ownerId := 2, title := "v", views := 0, isPublished := true }],
            likes := [],
            playlists := [],
            comments := [{ cid := 8, videoId := 7, ownerId := 2 }],
            tweets := [{ tid := 9, ownerId := 2 }],
            subs := [] })).1, db') ∧
      likedVideosOf 1 db' = (toggleRefList 7 (likedVideosOf 1
        { users := [],
          videos := [{ vid := 7, ownerId := 2, title := "v", views := 0, isPublished := true }],
          likes := [],
          playlists := [],
          comments := [{ cid := 8, videoId := 7, ownerId := 2 }],
          tweets := [{ tid := 9, ownerId := 2 }],
          subs := [] })).2 :=
  (C2_like_toggle_amended _ 1 7 8 9
    { vid := 7, ownerId := 2, title := "v", views := 0, isPublished := true }
    { cid := 8, videoId := 7, ownerId := 2 }
    { tid := 9, ownerId := 2 }
    (by simp) rfl (by simp) rfl (by simp) rfl (by simp)).1

/-! ## Subscription toggling
(`src/src/controllers/healthcheck.controller.js`, `toggleSubscription`)

Validate the channel id, 404 when the channel user does not exist, 400 when
the requester tries to subscribe to themselves, then delete the existing
(subscriber, channel) document (200) or create one (201). -/

/-- `toggleSubscription`, with the checks in source order: channel
existence, the self-subscription guard, then `findOne` / `deleteOne` /
`create` on the `Subscription` collection. -/
def toggleSubscription (uid channelId : Id) (db : DB) :
    Except (Nat × String) (Nat × DB) :=
  match db.users.find? (fun u => u.uid = channelId) with
  | none => .error (404, "Channel not found")
  | some _ =>
    if channelId = uid then
      .error (400, "You cannot subscribe to yourself")
    else
      match db.subs.find? (fun s => s.subscriber = uid ∧ s.channel = channelId) with
      | some s => .ok (200, { db with subs := db.subs.erase s })
      | none =>
        .ok (201, { db with subs := db.subs ++ [{ subscriber := uid, channel := channelId }] })

theorem pair_find?_of_mem (uid channelId : Id) (subs : List SubDoc)
    (h : (⟨uid, channelId⟩ : SubDoc) ∈ subs) :
    subs.find? (fun s => s.subscriber = uid ∧ s.channel = channelId) =
      some ⟨uid, channelId⟩ := by
  have hs : (subs.find? (fun s => s.subscriber = uid ∧ s.channel = channelId)).isSome :=
    List.find?_isSome.mpr ⟨⟨uid, channelId⟩, h, by simp⟩
  obtain ⟨s, hsf⟩ := Option.isSome_iff_exists.mp hs
  have hp := List.find?_some hsf
  simp only [decide_eq_true_eq] at hp
  obtain ⟨h1, h2⟩ := hp
  cases s
  subst h1
  subst h2
  exact hsf

theorem pair_find?_of_not_mem (uid channelId : Id) (subs : List SubDoc)
    (h : (⟨uid, channelId⟩ : SubDoc) ∉ subs) :
    subs.find? (fun s => s.subscriber = uid ∧ s.channel = channelId) = none := by
  rw [List.find?_eq_none]
  intro x hx hpx
  simp only [decide_eq_true_eq] at hpx
  obtain ⟨h1, h2⟩ := hpx
  apply h
  cases x
  subst h1
  subst h2
  exact hx

theorem toggleSubscription_of_mem (db : DB) (uid channelId : Id) (cu : UserDoc)
    (hcu : cu ∈ db.users) (hcuid : cu.uid = channelId) (hne : channelId ≠ uid)
    (hmem : (⟨uid, channelId⟩ : SubDoc) ∈ db.subs) :
    toggleSubscription uid channelId db =
      .ok (200, { db with subs := db.subs.erase ⟨uid, channelId⟩ }) := by
  have hcf : (db.users.find? (fun u => u.uid = channelId)).isSome :=
    List.find?_isSome.mpr ⟨cu, hcu, by simp [hcuid]⟩
  obtain ⟨w, hw⟩ := Option.isSome_iff_exists.mp hcf
  simp only [toggleSubscription, hw, if_neg hne,
    pair_find?_of_mem uid channelId db.subs hmem]

theorem toggleSubscription_of_not_mem (db : DB) (uid channelId : Id) (cu : UserDoc)
    (hcu : cu ∈ db.users) (hcuid : cu.uid = channelId) (hne : channelId ≠ uid)
    (hmem : (⟨uid, channelId⟩ : SubDoc) ∉ db.subs) :
    toggleSubscription uid channelId db =
      .ok (201, { db with subs := db.subs ++ [⟨uid, channelId⟩] }) := by
  have hcf : (db.users.find? (fun u => u.uid = channelId)).isSome :=
    List.find?_isSome.mpr ⟨cu, hcu, by simp [hcuid]⟩
  obtain ⟨w, hw⟩ := Option.isSome_iff_exists.mp hcf
  simp only [toggleSubscription, hw, if_neg hne,
    pair_find?_of_not_mem uid channelId db.subs hmem]

/-- C3.  Subscription toggling: for an authenticated user `uid` and an
existing channel distinct from `uid`, `toggleSubscription` deletes the
(subscriber, channel) document and responds 200 when one exists, and
otherwise creates exactly one and responds 201; the count of every other
pair is unchanged, and (the subscription set being duplicate-free) applying
the toggle twice restores the original subscription set. -/
theorem C3_toggle_subscription (db : DB) (uid channelId : Id) (cu : UserDoc)
    (hcu : cu ∈ db.users) (hcuid : cu.uid = channelId) (hne : channelId ≠ uid)
    (hnd : db.subs.Nodup) :
    ((⟨uid, channelId⟩ : SubDoc) ∈ db.subs →
      toggleSubscription uid channelId db =
        .ok (200, { db with subs := db.subs.erase ⟨uid, channelId⟩ })) ∧
    ((⟨uid, channelId⟩ : SubDoc) ∉ db.subs →
      toggleSubscription uid channelId db =
        .ok (201, { db with subs := db.subs ++ [⟨uid, channelId⟩] })) ∧
    (∀ (st : Nat) (db' : DB),
      toggleSubscription uid channelId db = .ok (st, db') →
      ∀ p : SubDoc, p ≠ ⟨uid, channelId⟩ →
        db'.subs.count p = db.subs.count p) ∧
    (∀ (st1 st2 : Nat) (db1 db2 : DB),
      toggleSubscription uid channelId db = .ok (st1, db1) →
      toggleSubscription uid channelId db1 = .ok (st2, db2) →
      ∀ p : SubDoc, p ∈ db2.subs ↔ p ∈ db.subs) := by
  refine ⟨toggleSubscription_of_mem db uid channelId cu hcu hcuid hne,
    toggleSubscription_of_not_mem db uid channelId cu hcu hcuid hne, ?_, ?_⟩
  · intro st db' hok p hp
    by_cases hmem : (⟨uid, channelId⟩ : SubDoc) ∈ db.subs
    · rw [toggleSubscription_of_mem db uid channelId cu hcu hcuid hne hmem] at hok
      simp only [Except.ok.injEq, Prod.mk.injEq] at hok
      rw [← hok.2]
      exact List.count_erase_of_ne hp _
    · rw [toggleSubscription_of_not_mem db uid channelId cu hcu hcuid hne hmem] at hok
      simp only [Except.ok.injEq, Prod.mk.injEq] at hok
      rw [← hok.2]
      simp only [List.count_append]
      have : ([(⟨uid, channelId⟩ : SubDoc)].count p) = 0 := by
        simp [List.count_singleton, hp]
      omega
  · intro st1 st2 db1 db2 h1 h2 p
    by_cases hmem : (⟨uid, channelId⟩ : SubDoc) ∈ db.subs
    · rw [toggleSubscription_of_mem db uid channelId cu hcu hcuid hne hmem] at h1
      simp only [Except.ok.injEq, Prod.mk.injEq] at h1
      obtain ⟨-, h1b⟩ := h1
      subst h1b
      have hcu1 : cu ∈ (DB.users { db with subs := db.subs.erase ⟨uid, channelId⟩ }) := hcu
      have hout : (⟨uid, channelId⟩ : SubDoc) ∉ db.subs.erase ⟨uid, channelId⟩ :=
        hnd.not_mem_erase
      rw [toggleSubscription_of_not_mem _ uid channelId cu hcu1 hcuid hne hout] at h2
      simp only [Except.ok.injEq, Prod.mk.injEq] at h2
      obtain ⟨-, h2b⟩ := h2
      subst h2b
      simp only [List.mem_append, List.mem_singleton]
      constructor
      · rintro (hx | rfl)
        · exact (List.erase_sublist _ _).mem hx
        · exact hmem
      · intro hx
        by_cases hxp : p = ⟨uid, channelId⟩
        · exact Or.inr hxp
        · exact Or.inl (hnd.mem_erase_iff.mpr ⟨hxp, hx⟩)
    · rw [toggleSubscription_of_not_mem db uid channelId cu hcu hcuid hne hmem] at h1
      simp only [Except.ok.injEq, Prod.mk.injEq] at h1
      obtain ⟨-, h1b⟩ := h1
      subst h1b
      have hcu1 : cu ∈ (DB.users { db with subs := db.subs ++ [⟨uid, channelId⟩] }) := hcu
      have hin : (⟨uid, channelId⟩ : SubDoc) ∈ db.subs ++ [⟨uid, channelId⟩] := by simp
      rw [toggleSubscription_of_mem _ uid channelId cu hcu1 hcuid hne hin] at h2
      simp only [Except.ok.injEq, Prod.mk.injEq] at h2
      obtain ⟨-, h2b⟩ := h2
      subst h2b
      have herase : (db.subs ++ [(⟨uid, channelId⟩ : SubDoc)]).erase ⟨uid, channelId⟩ =
          db.subs := by
        rw [List.erase_append_right ([⟨uid, channelId⟩] : List SubDoc) (by simpa using hmem)]
        simp
      show p ∈ (db.subs ++ [(⟨uid, channelId⟩ : SubDoc)]).erase ⟨uid, channelId⟩ ↔ p ∈ db.subs
      rw [herase]

/-- A user document used as an existing channel in concrete instances. -/
def subExUser : UserDoc :=
  { uid := 2, username := "bob", email := "b@mail", password := "q",
    passwordModified := false, watchHistory := [] }

/-- A database with one user (the channel) and one existing (1, 2)
subscription pair. -/
def subExDB : DB :=
  { users := [subExUser], videos := [], likes := [], playlists := [],
    comments := [], tweets := [], subs := [⟨1, 2⟩] }

theorem C3_toggle_subscription_witness :
    ((⟨1, 2⟩ : SubDoc) ∈ subExDB.subs →
      toggleSubscription 1 2 subExDB =
        .ok (200, { subExDB with subs := subExDB.subs.erase ⟨1, 2⟩ })) ∧
    ((⟨1, 2⟩ : SubDoc) ∉ subExDB.subs →
      toggleSubscription 1 2 subExDB =
        .ok (201, { subExDB with subs := subExDB.subs ++ [⟨1, 2⟩] })) ∧
    (∀ (st : Nat) (db' : DB),
      toggleSubscription 1 2 subExDB = .ok (st, db') →
      ∀ p : SubDoc, p ≠ ⟨1, 2⟩ →
        db'.subs.count p = subExDB.subs.count p) ∧
    (∀ (st1 st2 : Nat) (db1 db2 : DB),
      toggleSubscription 1 2 subExDB = .ok (st1, db1) →
      toggleSubscription 1 2 db1 = .ok (st2, db2) →
      ∀ p : SubDoc, p ∈ db2.subs ↔ p ∈ subExDB.subs) :=
  C3_toggle_subscription subExDB 1 2 subExUser (by simp [subExDB, subExUser]) rfl
    (by decide) (by simp [subExDB])

/-! ## Self-subscription rejection and the no-self-pair invariant -/

theorem toggleSubscription_self (db : DB) (uid : Id) (u : UserDoc)
    (hu : u ∈ db.users) (huid : u.uid = uid) :
    toggleSubscription uid uid db =
      .error (400, "You cannot subscribe to yourself") := by
  have hf : (db.users.find? (fun w => w.uid = uid)).isSome :=
    List.find?_isSome.mpr ⟨u, hu, by simp [huid]⟩
  obtain ⟨w, hw⟩ := Option.isSome_iff_exists.mp hf
  simp [toggleSubscription, hw]

/-- A successful `toggleSubscription` only ever adds the (uid, channelId)
pair, and only after the self-subscription guard has ruled out
`channelId = uid`. -/
theorem toggleSubscription_new_pairs (uid channelId : Id) (db : DB)
    (st : Nat) (db' : DB)
    (h : toggleSubscription uid channelId db = .ok (st, db')) :
    ∀ s : SubDoc, s ∈ db'.subs →
      s ∈ db.subs ∨ (s.subscriber = uid ∧ s.channel = channelId ∧ channelId ≠ uid) := by
  unfold toggleSubscription at h
  cases hf : db.users.find? (fun u => u.uid = channelId) with
  | none =>
    rw [hf] at h
    exact (Except.noConfusion h)
  | some w =>
    rw [hf] at h
    by_cases hself : channelId = uid
    · rw [if_pos hself] at h
      exact (Except.noConfusion h)
    · rw [if_neg hself] at h
      cases hp : db.subs.find? (fun s => s.subscriber = uid ∧ s.channel = channelId) with
      | some s0 =>
        rw [hp] at h
        simp only [Except.ok.injEq, Prod.mk.injEq] at h
        obtain ⟨-, hdb⟩ := h
        subst hdb
        intro s hs
        exact Or.inl ((List.erase_sublist _ _).mem hs)
      | none =>
        rw [hp] at h
        simp only [Except.ok.injEq, Prod.mk.injEq] at h
        obtain ⟨-, hdb⟩ := h
        subst hdb
        intro s hs
        rcases List.mem_append.mp hs with hs | hs
        · exact Or.inl hs
        · simp only [List.mem_singleton] at hs
          subst hs
          exact Or.inr ⟨rfl, rfl, hself⟩

/-- One request of a subscription workload, applied to the database: a
successful toggle updates it, a rejected one leaves it unchanged. -/
def applyToggle (db : DB) (op : Id × Id) : DB :=
  match toggleSubscription op.1 op.2 db with
  | .ok r => r.2
  | .error _ => db

/-- A sequence of `toggleSubscription` requests (requester, channelId). -/
def runToggles (ops : List (Id × Id)) (db : DB) : DB :=
  ops.foldl applyToggle db

theorem applyToggle_no_self (db : DB) (op : Id × Id)
    (hinv : ∀ s ∈ db.subs, s.subscriber ≠ s.channel) :
    ∀ s ∈ (applyToggle db op).subs, s.subscriber ≠ s.channel := by
  unfold applyToggle
  cases ht : toggleSubscription op.1 op.2 db with
  | error e => exact hinv
  | ok r =>
    intro s hs
    rcases toggleSubscription_new_pairs op.1 op.2 db r.1 r.2
      (by rw [ht]) s hs with hmem | ⟨h1, h2, h3⟩
    · exact hinv s hmem
    · rw [h1, h2]
      exact fun hc => h3 hc.symm

theorem runToggles_no_self (ops : List (Id × Id)) (db : DB)
    (hinv : ∀ s ∈ db.subs, s.subscriber ≠ s.channel) :
    ∀ s ∈ (runToggles ops db).subs, s.subscriber ≠ s.channel := by
  induction ops generalizing db with
  | nil => exact hinv
  | cons op rest ih =>
    have hr : runToggles (op :: rest) db = runToggles rest (applyToggle db op) := rfl
    rw [hr]
    exact ih (applyToggle db op) (applyToggle_no_self db op hinv)

/-- C9.  Self-subscription is rejected: for an authenticated user `uid`,
`toggleSubscription uid uid` fails with 400 "You cannot subscribe to
yourself" (leaving the database untouched), and any sequence of
`toggleSubscription` requests preserves the invariant that no stored
subscription pair has subscriber equal to channel. -/
theorem C9_self_subscription (db : DB) (uid : Id) (u : UserDoc)
    (hu : u ∈ db.users) (huid : u.uid = uid) :
    toggleSubscription uid uid db =
      .error (400, "You cannot subscribe to yourself") ∧
    (∀ ops : List (Id × Id),
      (∀ s ∈ db.subs, s.subscriber ≠ s.channel) →
      ∀ s ∈ (runToggles ops db).subs, s.subscriber ≠ s.channel) :=
  ⟨toggleSubscription_self db uid u hu huid,
   fun ops hinv => runToggles_no_self ops db hinv⟩

theorem C9_self_subscription_witness :
    toggleSubscription 2 2 subExDB =
      .error (400, "You cannot subscribe to yourself") ∧
    (∀ ops : List (Id × Id),
      (∀ s ∈ subExDB.subs, s.subscriber ≠ s.channel) →
      ∀ s ∈ (runToggles ops subExDB).subs, s.subscriber ≠ s.channel) :=
  C9_self_subscription subExDB 2 subExUser (by simp [subExDB, subExUser]) rfl

/-! ## Video deletion (`deleteVideo`, `video.controller.js`)

404 when the video does not exist, 401 when the requester does not own it,
then `Video.findByIdAndDelete` removes the video document (MongoDB `_id`s
are unique, so deletion is removal of every document carrying the id).
The subsequent Cloudinary media deletions touch no database state; when one
of them fails the controller responds 500, but the document is already
gone.  No other collection is touched. -/

/-- `deleteVideo`; `cloudOk` is the outcome of the external Cloudinary
deletions. -/
def deleteVideo (videoId requester : Id) (cloudOk : Bool) (db : DB) : Nat × DB :=
  match db.videos.find? (fun v => v.vid = videoId) with
  | none => (404, db)
  | some vd =>
    if vd.ownerId ≠ requester then (401, db)
    else
      let db' := { db with videos := db.videos.filter (fun v => ¬ v.vid = videoId) }
      if cloudOk then (200, db') else (500, db')

/-- C6.  No enforced referential integrity: a successful owner deletion of
video `v` removes only the Video document for `v`; users (hence every watch
history), playlists (hence their video lists), like documents and comments
are all left unchanged, so stored references to `v` dangle. -/
theorem C6_delete_video_frame (db : DB) (videoId requester : Id) (vd : VideoDoc)
    (hv : db.videos.find? (fun v => v.vid = videoId) = some vd)
    (hown : vd.ownerId = requester) :
    (deleteVideo videoId requester true db).1 = 200 ∧
    (deleteVideo videoId requester true db).2.videos =
      db.videos.filter (fun v => ¬ v.vid = videoId) ∧
    (deleteVideo videoId requester true db).2.users = db.users ∧
    (deleteVideo videoId requester true db).2.playlists = db.playlists ∧
    (deleteVideo videoId requester true db).2.likes = db.likes ∧
    (deleteVideo videoId requester true db).2.comments = db.comments ∧
    (deleteVideo videoId requester true db).2.tweets = db.tweets ∧
    (deleteVideo videoId requester true db).2.subs = db.subs := by
  have hfalse : ¬ vd.ownerId ≠ requester := fun hc => hc hown
  refine ⟨?_, ?_, ?_, ?_, ?_, ?_, ?_, ?_⟩ <;>
    simp [deleteVideo, hv, hfalse]

/-- A database in which every other collection references video 7: user 1's
watch history, a playlist, a like document and a comment. -/
def delExDB : DB :=
  { users := [{ uid := 1, username := "alice", email := "a@mail", password := "p",
                passwordModified := false, watchHistory := [7] }],
    videos := [{ vid := 7, ownerId := 1, title := "v", views := 3, isPublished := true }],
    likes := [{ likedBy := 1, videos := [7], comments := [], tweets := [] }],
    playlists := [{ pid := 4, ownerId := 1, videos := [7] }],
    comments := [{ cid := 5, videoId := 7, ownerId := 1 }],
    tweets := [], subs := [] }

theorem C6_delete_video_frame_witness :
    (deleteVideo 7 1 true delExDB).1 = 200 ∧
    (deleteVideo 7 1 true delExDB).2.videos =
      delExDB.videos.filter (fun v => ¬ v.vid = 7) ∧
    (deleteVideo 7 1 true delExDB).2.users = delExDB.users ∧
    (deleteVideo 7 1 true delExDB).2.playlists = delExDB.playlists ∧
    (deleteVideo 7 1 true delExDB).2.likes = delExDB.likes ∧
    (deleteVideo 7 1 true delExDB).2.comments = delExDB.comments ∧
    (deleteVideo 7 1 true delExDB).2.tweets = delExDB.tweets ∧
    (deleteVideo 7 1 true delExDB).2.subs = delExDB.subs :=
  C6_delete_video_frame delExDB 7 1
    { vid := 7, ownerId := 1, title := "v", views := 3, isPublished := true }
    (by decide) rfl

/-! ## Playlist membership (`playlist.controller.js`)

`addVideoToPlaylist`: 404 when the playlist does not exist, 403 when the
requester is not its owner, no-op when the video is already in the list
(`playlist.videos.includes(videoId)`), otherwise `push` and save.
`removeVideoFromPlaylist`: same guards, then
`playlist.videos.filter((v) => v.toString() !== videoId)` and save. -/

/-- `playlist.save()`: write the mutated document back over the playlist. -/
def savePlaylist (playlistId : Id) (d : PlaylistDoc) (ps : List PlaylistDoc) :
    List PlaylistDoc :=
  ps.map (fun q => if q.pid = playlistId then d else q)

def addVideoToPlaylist (uid playlistId videoId : Id) (db : DB) :
    Except (Nat × String) (Nat × DB) :=
  match db.playlists.find? (fun p => p.pid = playlistId) with
  | none => .error (404, "Playlist not found")
  | some pl =>
    if pl.ownerId ≠ uid then .error (403, "Unauthorized access")
    else if videoId ∈ pl.videos then .ok (200, db)
    else
      .ok (200,
        { db with
          playlists := savePlaylist playlistId
              { pl with videos := pl.videos ++ [videoId] } db.playlists })

def removeVideoFromPlaylist (uid playlistId videoId : Id) (db : DB) :
    Except (Nat × String) (Nat × DB) :=
  match db.playlists.find? (fun p => p.pid = playlistId) with
  | none => .error (404, "Playlist not found")
  | some pl =>
    if pl.ownerId ≠ uid then .error (403, "Unauthorized access")
    else
      .ok (200,
        { db with
          playlists := savePlaylist playlistId
              { pl with videos := pl.videos.filter (fun v => v ≠ videoId) }
              db.playlists })

/-- The stored videos list of a playlist (empty when it does not exist). -/
def playlistVideosOf (playlistId : Id) (db : DB) : List Id :=
  match db.playlists.find? (fun p => p.pid = playlistId) with
  | some p => p.videos
  | none => []

theorem playlistVideosOf_def (playlistId : Id) (db : DB) :
    playlistVideosOf playlistId db =
      (match db.playlists.find? (fun p => p.pid = playlistId) with
        | some p => p.videos
        | none => []) := rfl

/-! ### More `find?`/`map` helpers -/

theorem find?_key_of_mem {α : Type} (key : α → Id) (k : Id) (l : List α) (a : α)
    (ha : a ∈ l) (hak : key a = k) (hnd : (l.map key).Nodup) :
    l.find? (fun x => key x = k) = some a := by
  subst hak
  induction l with
  | nil => cases ha
  | cons b t ih =>
    simp only [List.map_cons, List.nodup_cons] at hnd
    rcases List.mem_cons.mp ha with rfl | hat
    · simp [List.find?_cons]
    · have hbk : key b ≠ key a := fun hbk => hnd.1 (hbk ▸ List.mem_map_of_mem key hat)
      rw [List.find?_cons]
      have hfalse : (decide (key b = key a)) = false := by simpa using hbk
      rw [hfalse]
      exact ih hat hnd.2

theorem map_id_of_no_match {α : Type} (key : α → Id) (k : Id) (a : α) (l : List α)
    (h : ∀ x ∈ l, ¬ key x = k) :
    l.map (fun x => if key x = k then a else x) = l := by
  induction l with
  | nil => rfl
  | cons b t ih =>
    simp only [List.map_cons]
    rw [if_neg (h b (by simp)), ih (fun x hx => h x (by simp [hx]))]

theorem map_replace_self {α : Type} (key : α → Id) (k : Id) (l : List α) (a : α)
    (ha : a ∈ l) (hak : key a = k) (hnd : (l.map key).Nodup) :
    l.map (fun x => if key x = k then a else x) = l := by
  subst hak
  induction l with
  | nil => rfl
  | cons b t ih =>
    simp only [List.map_cons, List.nodup_cons] at hnd
    rcases List.mem_cons.mp ha with rfl | hat
    · simp only [List.map_cons, ite_self]
      rw [map_id_of_no_match (fun x => key x) (key a) a t
        (fun x hx hk => hnd.1 (hk ▸ List.mem_map_of_mem key hx))]
    · have hbk : key b ≠ key a := fun hbk => hnd.1 (hbk ▸ List.mem_map_of_mem key hat)
      simp only [List.map_cons, if_neg hbk]
      rw [ih hat hnd.2]

theorem map_replace_replace {α : Type} (key : α → Id) (k : Id) (b c : α) (l : List α)
    (hb : key b = k) :
    (l.map (fun x => if key x = k then b else x)).map
        (fun x => if key x = k then c else x) =
      l.map (fun x => if key x = k then c else x) := by
  rw [List.map_map]
  apply List.map_congr_left
  intro x hx
  by_cases hxk : key x = k
  · simp [Function.comp, hxk, hb]
  · simp [Function.comp, hxk]

/-- C7.  Playlist membership: for a playlist owned by the requester,
`addVideoToPlaylist` is a no-op when the video is already present and
otherwise appends it at the end; `removeVideoFromPlaylist` removes every
occurrence preserving the order of the rest; a non-owner gets 403 from both
with no change; and for a video not yet in the playlist, adding and then
removing it restores the database exactly. -/
theorem C7_playlist_membership (db : DB) (uid playlistId videoId : Id)
    (pl : PlaylistDoc) (hpl : pl ∈ db.playlists) (hpid : pl.pid = playlistId)
    (hnd : (db.playlists.map (fun p => p.pid)).Nodup) :
    (pl.ownerId ≠ uid →
      addVideoToPlaylist uid playlistId videoId db =
        .error (403, "Unauthorized access") ∧
      removeVideoFromPlaylist uid playlistId videoId db =
        .error (403, "Unauthorized access")) ∧
    (pl.ownerId = uid →
      (videoId ∈ pl.videos →
        addVideoToPlaylist uid playlistId videoId db = .ok (200, db)) ∧
      (videoId ∉ pl.videos →
        ∃ db' : DB, addVideoToPlaylist uid playlistId videoId db = .ok (200, db') ∧
          playlistVideosOf playlistId db' = pl.videos ++ [videoId]) ∧
      (∃ db' : DB, removeVideoFromPlaylist uid playlistId videoId db = .ok (200, db') ∧
        playlistVideosOf playlistId db' = pl.videos.filter (fun v => v ≠ videoId)) ∧
      (videoId ∉ pl.videos →
        ∀ db1 : DB, addVideoToPlaylist uid playlistId videoId db = .ok (200, db1) →
          removeVideoFromPlaylist uid playlistId videoId db1 = .ok (200, db))) := by
  have hfind : db.playlists.find? (fun p => p.pid = playlistId) = some pl :=
    find?_key_of_mem (fun p => p.pid) playlistId db.playlists pl hpl hpid hnd
  constructor
  · intro hown
    constructor
    · simp only [addVideoToPlaylist, hfind, if_pos hown]
    · simp only [removeVideoFromPlaylist, hfind, if_pos hown]
  · intro hown
    have hnown : ¬ pl.ownerId ≠ uid := fun hc => hc hown
    refine ⟨?_, ?_, ?_, ?_⟩
    · intro hv
      simp only [addVideoToPlaylist, hfind, if_neg hnown, if_pos hv]
    · intro hv
      have hadd : addVideoToPlaylist uid playlistId videoId db =
          .ok (200,
            { db with
              playlists := savePlaylist playlistId
                  { pl with videos := pl.videos ++ [videoId] } db.playlists }) := by
        simp only [addVideoToPlaylist, hfind, if_neg hnown, if_neg hv]
      refine ⟨_, hadd, ?_⟩
      rw [playlistVideosOf_def]
      simp only []
      unfold savePlaylist
      rw [find?_map_update (fun p => p.pid)
        (fun _ => { pl with videos := pl.videos ++ [videoId] }) playlistId
        db.playlists pl (fun b hb => hpid.trans hb.symm) hpl hpid hnd]
    · have hrem : removeVideoFromPlaylist uid playlistId videoId db =
          .ok (200,
            { db with
              playlists := savePlaylist playlistId
                  { pl with videos := pl.videos.filter (fun v => v ≠ videoId) }
                  db.playlists }) := by
        simp only [removeVideoFromPlaylist, hfind, if_neg hnown]
      refine ⟨_, hrem, ?_⟩
      rw [playlistVideosOf_def]
      simp only []
      unfold savePlaylist
      rw [find?_map_update (fun p => p.pid)
        (fun _ => { pl with videos := pl.videos.filter (fun v => v ≠ videoId) })
        playlistId db.playlists pl (fun b hb => hpid.trans hb.symm) hpl hpid hnd]
    · intro hv db1 hdb1
      have hadd : addVideoToPlaylist uid playlistId videoId db =
          .ok (200,
            { db with
              playlists := savePlaylist playlistId
                  { pl with videos := pl.videos ++ [videoId] } db.playlists }) := by
        simp only [addVideoToPlaylist, hfind, if_neg hnown, if_neg hv]
      rw [hadd] at hdb1
      simp only [Except.ok.injEq, Prod.mk.injEq] at hdb1
      obtain ⟨-, hdb1b⟩ := hdb1
      subst hdb1b
      have hfind1 : (savePlaylist playlistId
          { pl with videos := pl.videos ++ [videoId] } db.playlists).find?
            (fun p => p.pid = playlistId) =
          some { pl with videos := pl.videos ++ [videoId] } :=
        find?_map_update (fun p => p.pid)
          (fun _ => { pl with videos := pl.videos ++ [videoId] }) playlistId
          db.playlists pl (fun b hb => hpid.trans hb.symm) hpl hpid hnd
      have hfil : (pl.videos ++ [videoId]).filter (fun x => x ≠ videoId) =
          pl.videos := by
        rw [List.filter_append]
        have h1 : pl.videos.filter (fun x => x ≠ videoId) = pl.videos := by
          rw [List.filter_eq_self]
          intro x hx
          simpa using (fun he : x = videoId => hv (he ▸ hx))
        rw [h1]
        simp
      simp only [removeVideoFromPlaylist, hfind1, if_neg hnown]
      rw [hfil]
      rw [show ({ pl with videos := pl.videos } : PlaylistDoc) = pl from rfl]
      unfold savePlaylist
      rw [map_replace_replace (fun p => p.pid) playlistId
        { pl with videos := pl.videos ++ [videoId] } pl db.playlists hpid]
      rw [map_replace_self (fun p => p.pid) playlistId db.playlists pl hpl hpid hnd]

/-- A playlist owned by user 1, holding video 5. -/
def plEx : PlaylistDoc := { pid := 4, ownerId := 1, videos := [5] }

/-- A database with only the playlist `plEx`. -/
def plExDB : DB :=
  { users := [], videos := [], likes := [], playlists := [plEx],
    comments := [], tweets := [], subs := [] }

theorem C7_playlist_membership_witness :
    (plEx.ownerId ≠ 1 →
      addVideoToPlaylist 1 4 7 plExDB = .error (403, "Unauthorized access") ∧
      removeVideoFromPlaylist 1 4 7 plExDB = .error (403, "Unauthorized access")) ∧
    (plEx.ownerId = 1 →
      (7 ∈ plEx.videos → addVideoToPlaylist 1 4 7 plExDB = .ok (200, plExDB)) ∧
      (7 ∉ plEx.videos →
        ∃ db' : DB, addVideoToPlaylist 1 4 7 plExDB = .ok (200, db') ∧
          playlistVideosOf 4 db' = plEx.videos ++ [7]) ∧
      (∃ db' : DB, removeVideoFromPlaylist 1 4 7 plExDB = .ok (200, db') ∧
        playlistVideosOf 4 db' = plEx.videos.filter (fun v => v ≠ 7)) ∧
      (7 ∉ plEx.videos →
        ∀ db1 : DB, addVideoToPlaylist 1 4 7 plExDB = .ok (200, db1) →
          removeVideoFromPlaylist 1 4 7 db1 = .ok (200, plExDB))) :=
  C7_playlist_membership plExDB 1 4 7 plEx (by simp [plExDB]) rfl
    (by simp [plExDB])

/-! ## Passwords: bcrypt, the pre-save hook, registration

`src/unnamed/part_000` (`user.model.js`): the `pre("save")` hook rehashes
the password exactly when `isModified("password")`, and
`isPasswordCorrect` delegates to `bcrypt.compareSync`. -/

/-- Modelled from the spec: bcrypt (`bcrypt.hashSync(p, 10)` /
`bcrypt.compareSync`) is an external cryptographic dependency — the spec
lists authentication cryptography among the external collaborators not
reimplemented here — so it is modelled by its contract as an injective
tagged encoding: `compareSync q (hashSync p)` succeeds exactly when
`q = p`, and a hash (carrying the `$2b$10$` prefix) is never the plaintext
itself. -/
def bcryptHashSync (password : String) : String :=
  "$2b$10$" ++ password

/-- Modelled from the spec: `bcrypt.compareSync(password, hash)`, see
`bcryptHashSync`. -/
def bcryptCompareSync (password hash : String) : Bool :=
  hash == bcryptHashSync password

/-- The `userSchema.pre("save")` hook: rehash the password exactly when the
password field was modified since the document was last persisted. -/
def preSave (u : UserDoc) : UserDoc :=
  if u.passwordModified then
    { u with password := bcryptHashSync u.password, passwordModified := false }
  else u

/-- `userSchema.methods.isPasswordCorrect`. -/
def isPasswordCorrect (password : String) (u : UserDoc) : Bool :=
  bcryptCompareSync password u.password

/-- The password policy regex
`^(?=.*[a-z])(?=.*[A-Z])(?=.*[0-9])(?=.*[!@#$%^&*])(?=.{8,})` of
`registerUser` / `loginUser` / `changeCurrentPassword`. -/
def passwordValid (p : String) : Bool :=
  p.toList.any (fun c => 'a' ≤ c ∧ c ≤ 'z') &&
  p.toList.any (fun c => 'A' ≤ c ∧ c ≤ 'Z') &&
  p.toList.any (fun c => '0' ≤ c ∧ c ≤ '9') &&
  p.toList.any (fun c => c ∈ ['!', '@', '#', '$', '%', '^', '&', '*']) &&
  decide (8 ≤ p.length)

/-- The 400 message of the password policy. -/
def passwordPolicyMsg : String :=
  "Password should be at least 8 characters long, and contain at least one uppercase, one lowercase, one digit, and one special character"

/-- The body of a registration request; `hasAvatar` stands for the
presence of the uploaded avatar file. -/
structure RegisterReq where
  fullName : String
  username : String
  email : String
  password : String
  hasAvatar : Bool
  deriving Repr, DecidableEq

/-- `registerUser` (`user.controller.js` lines 44–142): presence checks,
the password policy, the duplicate check
`User.findOne({ $or: [{ username }, { email }] })` with the submitted
strings as given (409 on a hit), the avatar check, then `User.create` with
`username.toLowerCase()` / `email.toLowerCase()` and the pre-save hash.
The `unique: true` markers on `username` and `email` in `userSchema`
(`src/unnamed/part_000` lines 21–37) make MongoDB's unique indexes reject
an insert duplicating a stored (lowercased) username or email; the
controller's catch block surfaces that as a 500. -/
def registerUser (req : RegisterReq) (newId : Id) (db : DB) :
    Except (Nat × String) (Nat × DB) :=
  if req.fullName = "" then .error (400, "Full name is required")
  else if req.username = "" then .error (400, "Username is required")
  else if req.email = "" then .error (400, "Email is required")
  else if ¬ passwordValid req.password then .error (400, passwordPolicyMsg)
  else if db.users.any (fun u => u.username = req.username ∨ u.email = req.email) then
    .error (409, "User already exists")
  else if ¬ req.hasAvatar then .error (400, "Avatar is required")
  else if db.users.any (fun u =>
      u.username = req.username.toLower ∨ u.email = req.email.toLower) then
    .error (500, "duplicate key error")
  else
    .ok (201,
      { db with
        users := db.users ++
          [preSave
            { uid := newId, username := req.username.toLower,
              email := req.email.toLower, password := req.password,
              passwordModified := true, watchHistory := [] }] })

/-- `changeCurrentPassword` (`user.controller.js` lines 325–374): presence
checks, the password policy on the new password, `isPasswordCorrect` on the
current one (401 on mismatch), then assignment and `save()` (which rehashes
through the pre-save hook). -/
def changeCurrentPassword (currentPassword newPassword : String) (u : UserDoc) :
    Except (Nat × String) (Nat × UserDoc) :=
  if currentPassword = "" then .error (400, "Current Password is required")
  else if newPassword = "" then .error (400, "New Password is required")
  else if ¬ passwordValid newPassword then .error (400, passwordPolicyMsg)
  else if ¬ isPasswordCorrect currentPassword u then
    .error (401, "Invalid current password")
  else .ok (200, preSave { u with password := newPassword, passwordModified := true })

/-! ### Facts about the bcrypt model and the hooks -/

theorem bcryptHashSync_ne (p : String) : bcryptHashSync p ≠ p := by
  intro h
  have hl : (("$2b$10$" ++ p) : String).length = p.length := congrArg String.length h
  rw [String.length_append] at hl
  have h7 : ("$2b$10$" : String).length = 7 := rfl
  omega

theorem bcryptCompareSync_iff (q p : String) :
    bcryptCompareSync q (bcryptHashSync p) = true ↔ q = p := by
  unfold bcryptCompareSync bcryptHashSync
  rw [beq_iff_eq]
  constructor
  · intro h
    have hd : ("$2b$10$" : String).data ++ p.data =
        ("$2b$10$" : String).data ++ q.data := by
      have := congrArg String.data h
      simpa [String.data_append] using this
    have hpq : p.data = q.data := List.append_cancel_left hd
    exact (String.ext hpq).symm
  · intro h
    rw [h]

theorem preSave_not_modified (u : UserDoc) (hu : u.passwordModified = false) :
    preSave u = u := by
  simp [preSave, hu]

/-- C5.  Hashed-password round trip: saving a user whose password field
holds plaintext `p` (as registration and `changeCurrentPassword` do) stores
`bcrypt.hashSync p`, which is never `p` itself; `isPasswordCorrect q`
succeeds exactly when `q = p`; the hash is recomputed exactly when the
password field was modified; and a successful `changeCurrentPassword`
requires the correct current password and stores the hash of the new
one. -/
theorem C5_password_round_trip (p q : String) (d : UserDoc)
    (hd : d.password = p) (hm : d.passwordModified = true) :
    (preSave d).password = bcryptHashSync p ∧
    (preSave d).password ≠ p ∧
    (isPasswordCorrect q (preSave d) = true ↔ q = p) ∧
    (∀ u : UserDoc, u.passwordModified = false → preSave u = u) ∧
    (∀ (cur newP : String) (st : Nat) (v : UserDoc),
      changeCurrentPassword cur newP (preSave d) = .ok (st, v) →
      cur = p ∧ st = 200 ∧ v.password = bcryptHashSync newP ∧
        v.password ≠ newP ∧
        (∀ r : String, isPasswordCorrect r v = true ↔ r = newP)) := by
  have hps : (preSave d).password = bcryptHashSync p := by
    simp [preSave, hm, hd]
  have hcorrect : ∀ r : String, isPasswordCorrect r (preSave d) = true ↔ r = p := by
    intro r
    unfold isPasswordCorrect
    rw [hps]
    exact bcryptCompareSync_iff r p
  refine ⟨hps, ?_, hcorrect q, preSave_not_modified, ?_⟩
  · rw [hps]
    exact bcryptHashSync_ne p
  · intro cur newP st v h
    unfold changeCurrentPassword at h
    by_cases h1 : cur = ""
    · rw [if_pos h1] at h
      exact Except.noConfusion h
    rw [if_neg h1] at h
    by_cases h2 : newP = ""
    · rw [if_pos h2] at h
      exact Except.noConfusion h
    rw [if_neg h2] at h
    by_cases h3 : ¬ passwordValid newP
    · rw [if_pos h3] at h
      exact Except.noConfusion h
    rw [if_neg h3] at h
    by_cases h4 : ¬ isPasswordCorrect cur (preSave d)
    · rw [if_pos h4] at h
      exact Except.noConfusion h
    rw [if_neg h4] at h
    have hcur : cur = p := by
      have : isPasswordCorrect cur (preSave d) = true := by
        revert h4
        cases isPasswordCorrect cur (preSave d) <;> simp
      exact (hcorrect cur).mp this
    simp only [Except.ok.injEq, Prod.mk.injEq] at h
    obtain ⟨hst, hv⟩ := h
    subst hv
    have hvpass :
        (preSave { (preSave d) with password := newP, passwordModified := true }).password =
          bcryptHashSync newP := by
      simp [preSave]
    refine ⟨hcur, hst.symm, hvpass, ?_, ?_⟩
    · rw [hvpass]
      exact bcryptHashSync_ne newP
    · intro r
      unfold isPasswordCorrect
      rw [hvpass]
      exact bcryptCompareSync_iff r newP

/-- A fresh user document with plaintext password, as `User.create` builds
it just before the pre-save hook runs. -/
def pwExUser : UserDoc :=
  { uid := 1, username := "u", email := "e", password := "Secret1!",
    passwordModified := true, watchHistory := [] }

theorem C5_password_round_trip_witness :
    (preSave pwExUser).password = bcryptHashSync "Secret1!" ∧
    (preSave pwExUser).password ≠ "Secret1!" ∧
    (isPasswordCorrect "other" (preSave pwExUser) = true ↔ "other" = "Secret1!") ∧
    (∀ u : UserDoc, u.passwordModified = false → preSave u = u) ∧
    (∀ (cur newP : String) (st : Nat) (v : UserDoc),
      changeCurrentPassword cur newP (preSave pwExUser) = .ok (st, v) →
      cur = "Secret1!" ∧ st = 200 ∧ v.password = bcryptHashSync newP ∧
        v.password ≠ newP ∧
        (∀ r : String, isPasswordCorrect r v = true ↔ r = newP)) :=
  C5_password_round_trip "Secret1!" "other" pwExUser rfl rfl

/-! ### Registration and the username/email uniqueness invariant -/

theorem preSave_username (u : UserDoc) : (preSave u).username = u.username := by
  unfold preSave
  split <;> rfl

theorem preSave_email (u : UserDoc) : (preSave u).email = u.email := by
  unfold preSave
  split <;> rfl

/-- No two stored users share a username, and none share an email. -/
def usersUnique (db : DB) : Prop :=
  (db.users.map (fun u => u.username)).Nodup ∧
  (db.users.map (fun u => u.email)).Nodup

theorem registerUser_dup (req : RegisterReq) (newId : Id) (db : DB)
    (h1 : req.fullName ≠ "") (h2 : req.username ≠ "") (h3 : req.email ≠ "")
    (h4 : passwordValid req.password = true)
    (hdup : ∃ u ∈ db.users, u.username = req.username ∨ u.email = req.email) :
    registerUser req newId db = .error (409, "User already exists") := by
  have h5 : db.users.any
      (fun u => u.username = req.username ∨ u.email = req.email) = true := by
    rw [List.any_eq_true]
    obtain ⟨u, hu, hor⟩ := hdup
    exact ⟨u, hu, by simpa using hor⟩
  unfold registerUser
  rw [if_neg h1, if_neg h2, if_neg h3, if_neg (by simp [h4]), if_pos h5]

theorem registerUser_ok (req : RegisterReq) (newId : Id) (db : DB)
    (st : Nat) (db' : DB)
    (h : registerUser req newId db = .ok (st, db')) :
    st = 201 ∧
    db'.users = db.users ++
      [preSave
        { uid := newId, username := req.username.toLower,
          email := req.email.toLower, password := req.password,
          passwordModified := true, watchHistory := [] }] ∧
    (¬ ∃ u ∈ db.users, u.username = req.username ∨ u.email = req.email) ∧
    (∀ u ∈ db.users, u.username ≠ req.username.toLower ∧
      u.email ≠ req.email.toLower) := by
  unfold registerUser at h
  by_cases h1 : req.fullName = ""
  · rw [if_pos h1] at h
    exact Except.noConfusion h
  rw [if_neg h1] at h
  by_cases h2 : req.username = ""
  · rw [if_pos h2] at h
    exact Except.noConfusion h
  rw [if_neg h2] at h
  by_cases h3 : req.email = ""
  · rw [if_pos h3] at h
    exact Except.noConfusion h
  rw [if_neg h3] at h
  by_cases h4 : ¬ passwordValid req.password
  · rw [if_pos h4] at h
    exact Except.noConfusion h
  rw [if_neg h4] at h
  by_cases h5 : db.users.any
      (fun u => u.username = req.username ∨ u.email = req.email) = true
  · rw [if_pos h5] at h
    exact Except.noConfusion h
  rw [if_neg h5] at h
  by_cases h6 : ¬ req.hasAvatar
  · rw [if_pos h6] at h
    exact Except.noConfusion h
  rw [if_neg h6] at h
  by_cases h7 : db.users.any
      (fun u => u.username = req.username.toLower ∨ u.email = req.email.toLower) = true
  · rw [if_pos h7] at h
    exact Except.noConfusion h
  rw [if_neg h7] at h
  simp only [Except.ok.injEq, Prod.mk.injEq] at h
  obtain ⟨hst, hdb⟩ := h
  subst hdb
  refine ⟨hst.symm, rfl, ?_, ?_⟩
  · rintro ⟨u, hu, hor⟩
    exact h5 (List.any_eq_true.mpr ⟨u, hu, by simpa using hor⟩)
  · intro u hu
    constructor
    · intro he
      exact h7 (List.any_eq_true.mpr ⟨u, hu, by simp [he]⟩)
    · intro he
      exact h7 (List.any_eq_true.mpr ⟨u, hu, by simp [he]⟩)

theorem registerUser_preserves_unique (req : RegisterReq) (newId : Id) (db : DB)
    (st : Nat) (db' : DB)
    (h : registerUser req newId db = .ok (st, db')) (hU : usersUnique db) :
    usersUnique db' := by
  obtain ⟨-, hdb, -, hfresh⟩ := registerUser_ok req newId db st db' h
  constructor
  · rw [show db'.users = db.users ++ _ from hdb, List.map_append]
    refine List.Nodup.append hU.1 (by simp) ?_
    intro x hx hy
    simp only [List.map_cons, List.map_nil, List.mem_cons, List.not_mem_nil,
      or_false, preSave_username] at hy
    obtain ⟨u, hu, hux⟩ := List.mem_map.mp hx
    exact (hfresh u hu).1 (hux ▸ hy ▸ rfl)
  · rw [show db'.users = db.users ++ _ from hdb, List.map_append]
    refine List.Nodup.append hU.2 (by simp) ?_
    intro x hx hy
    simp only [List.map_cons, List.map_nil, List.mem_cons, List.not_mem_nil,
      or_false, preSave_email] at hy
    obtain ⟨u, hu, hux⟩ := List.mem_map.mp hx
    exact (hfresh u hu).2 (hux ▸ hy ▸ rfl)

/-- One registration request of a workload, applied to the database. -/
def applyRegister (db : DB) (r : RegisterReq × Id) : DB :=
  match registerUser r.1 r.2 db with
  | .ok p => p.2
  | .error _ => db

/-- A sequence of `registerUser` requests. -/
def runRegisters (rs : List (RegisterReq × Id)) (db : DB) : DB :=
  rs.foldl applyRegister db

theorem applyRegister_preserves_unique (db : DB) (r : RegisterReq × Id)
    (hU : usersUnique db) : usersUnique (applyRegister db r) := by
  unfold applyRegister
  cases hr : registerUser r.1 r.2 db with
  | error e => exact hU
  | ok p => exact registerUser_preserves_unique r.1 r.2 db p.1 p.2 (by rw [hr]) hU

theorem runRegisters_unique (rs : List (RegisterReq × Id)) (db : DB)
    (hU : usersUnique db) : usersUnique (runRegisters rs db) := by
  induction rs generalizing db with
  | nil => exact hU
  | cons r rest ih =>
    have hr : runRegisters (r :: rest) db = runRegisters rest (applyRegister db r) := rfl
    rw [hr]
    exact ih (applyRegister db r) (applyRegister_preserves_unique db r hU)

/-- C4.  Uniqueness of username/email: a valid registration is rejected
with 409 whenever a stored user already has the submitted username or
email (compared as given); a creation happens only when no stored user has
them; and, thanks to the schema's unique indexes on the lowercased stored
values, every sequence of register operations preserves the invariant that
no two users share a username or an email. -/
theorem C4_register_uniqueness (db : DB) (req : RegisterReq) (newId : Id)
    (h1 : req.fullName ≠ "") (h2 : req.username ≠ "") (h3 : req.email ≠ "")
    (h4 : passwordValid req.password = true) :
    ((∃ u ∈ db.users, u.username = req.username ∨ u.email = req.email) →
      registerUser req newId db = .error (409, "User already exists")) ∧
    (∀ (st : Nat) (db' : DB), registerUser req newId db = .ok (st, db') →
      st = 201 ∧
      (¬ ∃ u ∈ db.users, u.username = req.username ∨ u.email = req.email) ∧
      db'.users = db.users ++
        [preSave
          { uid := newId, username := req.username.toLower,
            email := req.email.toLower, password := req.password,
            passwordModified := true, watchHistory := [] }]) ∧
    (∀ rs : List (RegisterReq × Id),
      usersUnique db → usersUnique (runRegisters rs db)) :=
  ⟨fun hdup => registerUser_dup req newId db h1 h2 h3 h4 hdup,
   fun st db' h =>
     let r := registerUser_ok req newId db st db' h
     ⟨r.1, r.2.2.1, r.2.1⟩,
   fun rs hU => runRegisters_unique rs db hU⟩

theorem C4_register_uniqueness_witness :
    ((∃ u ∈ delExDB.users, u.username = "Alice" ∨ u.email = "A@mail") →
      registerUser
        { fullName := "Alice B", username := "Alice", email := "A@mail",
          password := "Secret1!", hasAvatar := true } 9 delExDB =
        .error (409, "User already exists")) ∧
    (∀ (st : Nat) (db' : DB),
      registerUser
        { fullName := "Alice B", username := "Alice", email := "A@mail",
          password := "Secret1!", hasAvatar := true } 9 delExDB = .ok (st, db') →
      st = 201 ∧
      (¬ ∃ u ∈ delExDB.users, u.username = "Alice" ∨ u.email = "A@mail") ∧
      db'.users = delExDB.users ++
        [preSave
          { uid := 9, username := ("Alice" : String).toLower,
            email := ("A@mail" : String).toLower, password := "Secret1!",
            passwordModified := true, watchHistory := [] }]) ∧
    (∀ rs : List (RegisterReq × Id),
      usersUnique delExDB → usersUnique (runRegisters rs delExDB)) :=
  C4_register_uniqueness delExDB
    { fullName := "Alice B", username := "Alice", email := "A@mail",
      password := "Secret1!", hasAvatar := true } 9
    (by decide) (by decide) (by decide) (by decide)

/-! ## JWT guard (`auth.middleware.js`, `verifyJWT`)

The token is read as
`req.cookies?.accessToken || req.headers["Authorization"]?.split(" ")[1]`.
Node's HTTP parser lowercases all incoming header names, so the header map
of an incoming Express request keys the Authorization header under
`"authorization"`; the capitalized lookup is modelled over that lowercased
map. -/

/-- Modelled from the spec: a `jsonwebtoken` token of the shared
authentication middleware, carrying the payload's optional `_id` claim and
the secret it was signed with. -/
structure JwtToken where
  sub : Option Id
  signedWith : String
  deriving Repr, DecidableEq

/-- Modelled from the spec: `jwt.verify(token, secret)` — the decoded
payload when the token was signed with `secret`, an exception (`none`)
otherwise. -/
def jwtVerify (tok : JwtToken) (secret : String) : Option JwtToken :=
  if tok.signedWith = secret then some tok else none

/-- An incoming request as the middleware sees it: the `accessToken` cookie
and the bearer token of the Authorization header, when sent. -/
structure HttpRequest where
  cookieAccessToken : Option JwtToken
  authorizationBearer : Option JwtToken
  deriving Repr, DecidableEq

/-- `req.headers` of an incoming request: Node stores header names
lowercased, so a sent Authorization header appears under
`"authorization"`. -/
def headersOf (r : HttpRequest) : List (String × JwtToken) :=
  match r.authorizationBearer with
  | some t => [("authorization", t)]
  | none => []

/-- `req.headers[name]?.split(" ")[1]`: the bearer token stored under
exactly the given key. -/
def headerBearer (r : HttpRequest) (name : String) : Option JwtToken :=
  ((headersOf r).find? (fun p => p.1 = name)).map (fun p => p.2)

/-- `verifyJWT`: take the cookie token, else the
`headers["Authorization"]` bearer; 401 when no token is found, when
verification fails, or when no stored user carries the token's `_id`
(`findById(undefined)` also yields no user); otherwise the request
proceeds with `req.user` set to the found user. -/
def verifyJWT (r : HttpRequest) (secret : String) (db : DB) :
    Except (Nat × String) UserDoc :=
  match r.cookieAccessToken.orElse (fun _ => headerBearer r "Authorization") with
  | none => .error (401, "Unauthorized Request")
  | some tok =>
    match jwtVerify tok secret with
    | none => .error (401, "invalid signature")
    | some decoded =>
      match decoded.sub with
      | none => .error (401, "Unauthorized Request")
      | some i =>
        match db.users.find? (fun u => u.uid = i) with
        | none => .error (401, "Unauthorized Request")
        | some u => .ok u

/-- A valid token for user 1, signed with the access-token secret. -/
def jwtExTok : JwtToken := { sub := some 1, signedWith := "s3cret" }

/-- A request carrying `jwtExTok` only in the Authorization header. -/
def jwtExReq : HttpRequest :=
  { cookieAccessToken := none, authorizationBearer := some jwtExTok }

/-- A database storing the user that `jwtExTok` identifies. -/
def jwtExDB : DB :=
  { users := [{ uid := 1, username := "alice", email := "a@mail", password := "h",
                passwordModified := false, watchHistory := [] }],
    videos := [], likes := [], playlists := [], comments := [], tweets := [],
    subs := [] }

/-- C8.  The Authorization-header path of `verifyJWT` is dead code: Node
lowercases incoming header names, so `req.headers["Authorization"]` never
matches and a request whose valid token (for an existing user) arrives
only in the Authorization header is rejected with 401 — although the claim
(and the evident intent of the `split(" ")[1]` bearer parsing) requires
`req.user` to be set and the controller to run.  The cookie path behaves
as claimed. -/
theorem C8_jwt_guard_header_bug :
    jwtExReq.authorizationBearer = some jwtExTok ∧
    jwtVerify jwtExTok "s3cret" = some jwtExTok ∧
    jwtExDB.users.find? (fun u => u.uid = 1) =
      some { uid := 1, username := "alice", email := "a@mail", password := "h",
             passwordModified := false, watchHistory := [] } ∧
    headerBearer jwtExReq "Authorization" = none ∧
    verifyJWT jwtExReq "s3cret" jwtExDB = .error (401, "Unauthorized Request") ∧
    verifyJWT { jwtExReq with cookieAccessToken := some jwtExTok } "s3cret" jwtExDB =
      .ok { uid := 1, username := "alice", email := "a@mail", password := "h",
            passwordModified := false, watchHistory := [] } :=
  ⟨rfl, rfl, rfl, rfl, rfl, rfl⟩

/-! ## Liked-videos query (`getLikedVideos`, `like.controller.js`) -/

/-- `populate("videos")`: resolve each stored reference to its Video
document, dropping references that no longer resolve. -/
def populateVideos (db : DB) (ids : List Id) : List VideoDoc :=
  ids.filterMap (fun i => db.videos.find? (fun v => v.vid = i))

/-- `getLikedVideos`: `Like.findOne({ likedBy }).populate("videos")`, then
`userLikes?.videos || []` with status 200; `findOne` creates nothing and
the database is returned unchanged. -/
def getLikedVideos (uid : Id) (db : DB) : Nat × List VideoDoc × DB :=
  match db.likes.find? (fun d => d.likedBy = uid) with
  | none => (200, [], db)
  | some d => (200, populateVideos db d.videos, db)

theorem populateVideos_map_vid (db : DB) (ids : List Id)
    (h : ∀ i ∈ ids, ∃ v ∈ db.videos, v.vid = i) :
    (populateVideos db ids).map (fun v => v.vid) = ids := by
  unfold populateVideos
  induction ids with
  | nil => rfl
  | cons i t ih =>
    obtain ⟨v, hv, hvid⟩ := h i (by simp)
    have hs : (db.videos.find? (fun w => w.vid = i)).isSome :=
      List.find?_isSome.mpr ⟨v, hv, by simp [hvid]⟩
    obtain ⟨w, hw⟩ := Option.isSome_iff_exists.mp hs
    have hwvid : w.vid = i := by simpa using List.find?_some hw
    simp only [List.filterMap_cons, hw, List.map_cons, hwvid]
    rw [ih (fun j hj => h j (by simp [hj]))]

/-- C10.  Liked-videos query on an empty state: with no Like document for
the user, `getLikedVideos` succeeds with 200 and the empty list, creating
nothing and leaving the database unchanged; with a Like document it
returns that document's videos list (each reference resolved, in order,
whenever all of them resolve), again without touching the database. -/
theorem C10_liked_videos_query (db : DB) (uid : Id) :
    (db.likes.find? (fun d => d.likedBy = uid) = none →
      getLikedVideos uid db = (200, [], db)) ∧
    (∀ d : LikeDoc, db.likes.find? (fun d => d.likedBy = uid) = some d →
      getLikedVideos uid db = (200, populateVideos db d.videos, db) ∧
      ((∀ i ∈ d.videos, ∃ v ∈ db.videos, v.vid = i) →
        (populateVideos db d.videos).map (fun v => v.vid) = d.videos)) := by
  constructor
  · intro hnone
    simp only [getLikedVideos, hnone]
  · intro d hsome
    exact ⟨by simp only [getLikedVideos, hsome],
      populateVideos_map_vid db d.videos⟩

/-- A database where user 1 has a like document whose references all
resolve. -/
def likedExDB : DB :=
  { users := [],
    videos := [{ vid := 7, ownerId := 2, title := "v", views := 0, isPublished := true }],
    likes := [{ likedBy := 1, videos := [7], comments := [], tweets := [] }],
    playlists := [], comments := [], tweets := [], subs := [] }

theorem C10_liked_videos_query_witness :
    (likedExDB.likes.find? (fun d => d.likedBy = 1) = none →
      getLikedVideos 1 likedExDB = (200, [], likedExDB)) ∧
    (∀ d : LikeDoc, likedExDB.likes.find? (fun d => d.likedBy = 1) = some d →
      getLikedVideos 1 likedExDB = (200, populateVideos likedExDB d.videos, likedExDB) ∧
      ((∀ i ∈ d.videos, ∃ v ∈ likedExDB.videos, v.vid = i) →
        (populateVideos likedExDB d.videos).map (fun v => v.vid) = d.videos)) :=
  C10_liked_videos_query likedExDB 1

end Playnex
